import Mathlib

/-!
Verification of the Appliances4Less sales-dashboard core pipeline:
column inference, row normalization (profit derivation), monthly
aggregation, month-over-month and year-over-year growth, and the 2026
forecast page.  Numeric cells are embedded as `Option ℚ` (a `none` is a
pandas null); where IEEE-float special values (infinity, NaN) are
observable, a dedicated value type `PVal` models them explicitly.
-/

namespace Dashboard

/-- A pandas-like numeric value: NaN, signed infinity (`inf true` is `+∞`),
or a finite rational. -/
inductive PVal where
  | nan : PVal
  | inf : Bool → PVal
  | num : ℚ → PVal
deriving DecidableEq

/-- Subtraction with float special-value propagation. -/
def psub : PVal → PVal → PVal
  | .nan, _ => .nan
  | _, .nan => .nan
  | .num a, .num b => .num (a - b)
  | .inf b, .num _ => .inf b
  | .num _, .inf b => .inf (!b)
  | .inf a, .inf b => if a = b then .nan else .inf a

/-- Addition with float special-value propagation. -/
def padd : PVal → PVal → PVal
  | .nan, _ => .nan
  | _, .nan => .nan
  | .num a, .num b => .num (a + b)
  | .inf b, .num _ => .inf b
  | .num _, .inf b => .inf b
  | .inf a, .inf b => if a = b then .inf a else .nan

/-- Multiplication with float special-value propagation. -/
def pmul : PVal → PVal → PVal
  | .nan, _ => .nan
  | _, .nan => .nan
  | .num a, .num b => .num (a * b)
  | .inf s, .num b => if b = 0 then .nan else .inf (s == decide (0 < b))
  | .num a, .inf s => if a = 0 then .nan else .inf (s == decide (0 < a))
  | .inf a, .inf b => .inf (a == b)

/-- Division with float special-value propagation; dividing a nonzero
finite value by (positive) zero yields a signed infinity, `0 / 0` is NaN. -/
def pdiv : PVal → PVal → PVal
  | .nan, _ => .nan
  | _, .nan => .nan
  | .num a, .num b =>
      if b = 0 then (if a = 0 then .nan else .inf (decide (0 < a))) else .num (a / b)
  | .inf s, .num b => if b = 0 then .inf s else .inf (s == decide (0 ≤ b))
  | .num _, .inf _ => .num 0
  | .inf _, .inf _ => .nan

/-- A nullable cell lifted into `PVal` (a pandas null enters float
arithmetic as NaN). -/
def optP : Option ℚ → PVal
  | none => .nan
  | some q => .num q

/-- Null-propagating subtraction on nullable cells
(`df['a'] - df['b']` with NaN propagation). -/
def osub : Option ℚ → Option ℚ → Option ℚ
  | some a, some b => some (a - b)
  | _, _ => none

/-! ## Row normalization: profit derivation (`infer_and_prepare`, lines 96-105) -/

/-- Which of the semantic roles column inference managed to bind
(whether `__revenue`, `__cost`, `__tax`, `__profit` exist as columns). -/
structure ColumnMapB where
  hasRevenue : Bool
  hasCost : Bool
  hasTax : Bool
  hasProfit : Bool
deriving DecidableEq

/-- A normalized row after numeric coercion: each role's cell is null
(`none`) when the parse failed or the role's column is unresolved. -/
structure Row where
  revenue : Option ℚ
  cost : Option ℚ
  tax : Option ℚ
  profit : Option ℚ
deriving DecidableEq

/-- Well-formedness linking the column map to the rows: a role whose
column was not resolved has a null cell in every row. -/
def RowsWF (cr : ColumnMapB) (rows : List Row) : Prop :=
  (cr.hasRevenue = false → ∀ r ∈ rows, r.revenue = none) ∧
  (cr.hasCost = false → ∀ r ∈ rows, r.cost = none) ∧
  (cr.hasTax = false → ∀ r ∈ rows, r.tax = none) ∧
  (cr.hasProfit = false → ∀ r ∈ rows, r.profit = none)

instance (cr : ColumnMapB) (rows : List Row) : Decidable (RowsWF cr rows) := by
  unfold RowsWF; infer_instance

/-- `infer_and_prepare` lines 96-105: if no profit column was resolved, or
the resolved profit column is entirely null, recompute `__profit` as
`__revenue - __cost - __tax` (when revenue, cost and tax columns all
exist), as `__revenue - __cost` (when revenue and cost exist but tax does
not), and otherwise set the whole `__profit` column to null. -/
def deriveProfit (cr : ColumnMapB) (rows : List Row) : List Row :=
  if !cr.hasProfit || rows.all (fun r => r.profit.isNone) then
    if cr.hasRevenue && cr.hasCost then
      if cr.hasTax then
        rows.map (fun r => { r with profit := osub (osub r.revenue r.cost) r.tax })
      else
        rows.map (fun r => { r with profit := osub r.revenue r.cost })
    else
      rows.map (fun r => { r with profit := none })
  else
    rows

/-! ## Monthly aggregation (`dashboard_app.py` lines 227-228) -/

/-- A filtered normalized row as the monthly aggregation sees it:
`month_key` is the first-of-month grouping key encoded as `year * 12 +
(month - 1)`, `none` when the row's date is null. -/
structure NRow where
  month_key : Option ℕ
  revenue : Option ℚ
  profit : Option ℚ
deriving DecidableEq

/-- One output row of the monthly aggregation. -/
structure MAgg where
  month_key : ℕ
  revenue_sum : ℚ
  profit_sum : ℚ
deriving DecidableEq

/-- The distinct month keys among rows with a non-null date, ascending
(pandas `groupby` drops null group keys and sorts the remaining keys). -/
def monthKeys (rows : List NRow) : List ℕ :=
  ((rows.filterMap NRow.month_key).dedup).insertionSort (· ≤ ·)

/-- Sum of a column of nullable cells, a null counting as 0
(pandas `sum` with default `skipna`). -/
def sumOpt (l : List (Option ℚ)) : ℚ := (l.map (fun o => o.getD 0)).sum

/-- `dashboard_app.py` line 227: group the filtered table by
`month_start`, summing `__revenue` and `__profit`, sorted by
`month_start`. -/
def aggregateMonthly (rows : List NRow) : List MAgg :=
  (monthKeys rows).map (fun k =>
    { month_key := k
      revenue_sum := sumOpt ((rows.filter (fun r => r.month_key == some k)).map NRow.revenue)
      profit_sum := sumOpt ((rows.filter (fun r => r.month_key == some k)).map NRow.profit) })

/-! ## Cumulative revenue (Growth Calculator, spec section 4.4) -/

/-- Modelled from the spec: the page computing the growth table with
`cumulative_revenue` is not under `src/` (the page files are numbered
from 2, so a page is missing); section 4.4 defines `cumulative_revenue`
as the running sum over the month-sorted `revenue_sum` sequence,
starting at the first element.  `cumulativeFrom acc l` is that running
sum with the partial total `acc` carried in. -/
def cumulativeFrom (acc : ℚ) : List ℚ → List ℚ
  | [] => []
  | x :: xs => (acc + x) :: cumulativeFrom (acc + x) xs

/-- Modelled from the spec: `cumulative_revenue` over the sorted monthly
`revenue_sum` sequence. -/
def cumulativeRevenue (l : List ℚ) : List ℚ := cumulativeFrom 0 l

/-! ## Month-over-month growth (`dashboard_app.py` lines 231-234) -/

/-- pandas `shift(1)` on a month-sorted sum column: previous row's
value, null for the first row. -/
def shift1 (l : List ℚ) : List (Option ℚ) := none :: (l.dropLast.map some)

/-- The MoM cell formula `(cur - prev) / prev * 100` in pandas float
arithmetic. -/
def momVal (x p : ℚ) : PVal :=
  pmul (pdiv (psub (.num x) (.num p)) (.num p)) (.num 100)

/-- `dashboard_app.py` lines 231-234:
`(col - col.shift(1)) / col.shift(1) * 100` in pandas float arithmetic;
the identical formula is applied to the revenue sums
(`revenue_mom_pct`) and to the profit sums (`profit_mom_pct`). -/
def momPct (l : List ℚ) : List PVal :=
  (l.zip (shift1 l)).map (fun p =>
    pmul (pdiv (psub (.num p.1) (optP p.2)) (optP p.2)) (.num 100))

/-- The tail of the MoM column: each entry of `xs` paired with its
predecessor in `p :: xs`. -/
def momTail (p : ℚ) (xs : List ℚ) : List PVal :=
  (xs.zip (some p :: xs.map some)).map (fun q =>
    pmul (pdiv (psub (.num q.1) (optP q.2)) (optP q.2)) (.num 100))

/-! ## Year-over-year growth (`dashboard_app.py` lines 237-240)

An aggregate row is `(month_key, revenue_sum)` with
`month_key = year * 12 + (month - 1)`, so the calendar month number is
`month_key % 12`. -/

/-- `dashboard_app.py` line 239:
`agg.groupby('month_number')['revenue'].shift(12)` — inside the group of
aggregates sharing a calendar month number, each row is paired with the
row twelve group positions earlier (hence twelve years earlier); null
when fewer than twelve same-month predecessors exist. -/
def lag12Code (agg : List (ℕ × ℚ)) : List (Option ℚ) :=
  (List.range agg.length).map (fun i =>
    match agg.get? i with
    | none => none
    | some cur =>
      let prev := (agg.take i).filter (fun x => x.1 % 12 == cur.1 % 12)
      if prev.length < 12 then none
      else (prev.get? (prev.length - 12)).map Prod.snd)

/-- Follows the claim's words: match against the aggregate exactly 12
positions earlier in the month-sorted sequence, and only when that
aggregate's calendar month number equals the current one. -/
def lag12Claim (agg : List (ℕ × ℚ)) : List (Option ℚ) :=
  (List.range agg.length).map (fun i =>
    if 12 ≤ i then
      match agg.get? (i - 12), agg.get? i with
      | some prev, some cur =>
          if prev.1 % 12 == cur.1 % 12 then some prev.2 else none
      | _, _ => none
    else none)

/-- `dashboard_app.py` line 240: `(revenue - lag) / lag * 100` in pandas
float arithmetic, over the code's lag column. -/
def yoyCode (agg : List (ℕ × ℚ)) : List PVal :=
  (agg.zip (lag12Code agg)).map (fun p =>
    pmul (pdiv (psub (.num p.1.2) (optP p.2)) (optP p.2)) (.num 100))

/-- Follows the claim's words: the YoY percentage, null when no matching
aggregate 12 positions back exists or the denominator is zero/null. -/
def yoyClaim (agg : List (ℕ × ℚ)) : List (Option ℚ) :=
  (agg.zip (lag12Claim agg)).map (fun p =>
    match p.2 with
    | none => none
    | some q => if q = 0 then none else some ((p.1.2 - q) / q * 100))

/-- Thirteen consecutive months, January 2024 (key `2024 * 12 = 24288`)
through January 2025, each with revenue sum 100. -/
def agg13 : List (ℕ × ℚ) := (List.range 13).map (fun i => (24288 + i, (100 : ℚ)))

/-! ## 2026 forecast page (`src/pages/4_2026_Forecast.py`) -/

/-- pandas NaN test used by `Series.mean` to skip entries. -/
def isNanB : PVal → Bool
  | .nan => true
  | _ => false

/-- pandas `Series.mean`: NaN entries are skipped, the mean is NaN when
nothing remains, and infinities propagate through the sum. -/
def pmean (l : List PVal) : PVal :=
  if (l.filter (fun v => !(isNanB v))).isEmpty then .nan
  else pdiv ((l.filter (fun v => !(isNanB v))).foldl padd (.num 0))
    (.num (((l.filter (fun v => !(isNanB v))).length : ℚ)))

/-- `4_2026_Forecast.py` line 42, the per-month ratio column
`monthly["Profit"] / monthly["Revenue"]`; a month is a
`(revenue_sum, profit_sum)` pair. -/
def marginRatios (monthly : List (ℚ × ℚ)) : List PVal :=
  monthly.map (fun x => pdiv (.num x.2) (.num x.1))

/-- `4_2026_Forecast.py` line 42:
`avg_margin = (monthly["Profit"] / monthly["Revenue"]).mean()`. -/
def avgMargin (monthly : List (ℚ × ℚ)) : PVal := pmean (marginRatios monthly)

/-- `4_2026_Forecast.py` line 43:
`avg_monthly_revenue = monthly["Revenue"].mean()`. -/
def avgMonthlyRevenue (monthly : List (ℚ × ℚ)) : PVal :=
  pmean (monthly.map (fun x => PVal.num x.1))

/-- `4_2026_Forecast.py` lines 53-60: starting from
`avg_monthly_revenue`, multiply the running revenue by `(1 + growth)`
once per forecast month and set `profit = rev * avg_margin`. -/
def forecastLoop (margin : PVal) (g : ℚ) : ℕ → PVal → List (PVal × PVal)
  | 0, _ => []
  | n + 1, rev =>
    (pmul rev (.num (1 + g)), pmul (pmul rev (.num (1 + g))) margin) ::
      forecastLoop margin g n (pmul rev (.num (1 + g)))

/-- The whole forecast table of the page: twelve months of 2026. -/
def forecastPage (monthly : List (ℚ × ℚ)) (g : ℚ) : List (PVal × PVal) :=
  forecastLoop (avgMargin monthly) g 12 (avgMonthlyRevenue monthly)

/-! ## Fixed-schema pages: required columns
(`src/pages/4_2026_Forecast.py` lines 24-29) -/

/-- How a fixed-schema view fails: the bare `KeyError` pandas raises on
`df[c]` for an absent column, or the descriptive report (offending
column plus a preview of the available columns) the claim describes. -/
inductive LoadErr where
  | keyErr : String → LoadErr
  | missingColumn : String → List String → LoadErr
deriving DecidableEq

/-- `df[c]`: pandas raises `KeyError c` when column `c` is absent. -/
def requireCol (cols : List String) (c : String) : Except LoadErr Unit :=
  if c ∈ cols then .ok () else .error (.keyErr c)

/-- `4_2026_Forecast.py` lines 24-29: the page dereferences `Month`
(twice), `Grand Total` and `Gross Profit(w/o Tax)` in that order with no
existence check; the first absent column aborts the view. -/
def forecastLoad (cols : List String) : Except LoadErr Unit :=
  match requireCol cols "Month" with
  | .error e => .error e
  | .ok _ =>
    match requireCol cols "Month" with
    | .error e => .error e
    | .ok _ =>
      match requireCol cols "Grand Total" with
      | .error e => .error e
      | .ok _ => requireCol cols "Gross Profit(w/o Tax)"

/-- Whether a failure is the descriptive missing-column report. -/
def isDescriptive : LoadErr → Bool
  | .missingColumn _ _ => true
  | .keyErr _ => false

/-- The first required column absent from `cols`, in the page's access
order. -/
def firstMissing (cols : List String) : Option String :=
  if "Month" ∈ cols then
    if "Grand Total" ∈ cols then
      if "Gross Profit(w/o Tax)" ∈ cols then none
      else some "Gross Profit(w/o Tax)"
    else some "Grand Total"
  else some "Month"

/-! ## Revenue column inference (`dashboard_app.py` lines 54-65) -/

/-- Does `hay` start with `needle`? -/
def startsWithL : List Char → List Char → Bool
  | [], _ => true
  | _ :: _, [] => false
  | a :: as, b :: bs => a == b && startsWithL as bs

/-- Does the haystack contain `needle` as a contiguous substring
(Python's `in` on strings)? -/
def containsL (needle : List Char) : List Char → Bool
  | [] => needle.isEmpty
  | h :: t => startsWithL needle (h :: t) || containsL needle t

/-- `needle in hay` on strings. -/
def strContains (hay needle : String) : Bool := containsL needle.data hay.data

/-- ASCII lowercasing of a character, as Python's `str.lower` acts on
the ASCII column names involved here. -/
def lowerChar (c : Char) : Char :=
  if 65 ≤ c.toNat ∧ c.toNat ≤ 90 then Char.ofNat (c.toNat + 32) else c

/-- ASCII lowercasing of a column name. -/
def lowerStr (s : String) : String := ⟨s.data.map lowerChar⟩

/-- `dashboard_app.py` line 56: the ordered exact-match candidate list
for the revenue role. -/
def revenueCandidates : List String :=
  ["total", "amount", "sale amount", "revenue", "sale", "total sale",
    "total_amount", "grand total", "grand_total"]

/-- Index of the first element satisfying `p`
(Python `list.index` guarded by `in`). -/
def firstIdx (p : String → Bool) : List String → Option ℕ
  | [] => none
  | c :: cs => if p c then some 0 else (firstIdx p cs).map (· + 1)

/-- `dashboard_app.py` lines 56-59, exact phase: for each candidate in
list order, if it occurs among the lowercased column names, return the
original column at `cols_lower.index(candidate)`. -/
def findExact (cols : List String) : List String → Option String
  | [] => none
  | cand :: rest =>
    match firstIdx (fun c => c == cand) (cols.map lowerStr) with
    | some i => cols.get? i
    | none => findExact cols rest

/-- lines 60-65, fallback phase: the first column, in original order,
whose lowercased name contains "total", "amount" or "sale". -/
def substrRevenue (cols : List String) : Option String :=
  match firstIdx
      (fun c => strContains c "total" || strContains c "amount" ||
        strContains c "sale") (cols.map lowerStr) with
  | some i => cols.get? i
  | none => none

/-- lines 54-65, the code's full revenue-role inference. -/
def inferRevenue (cols : List String) : Option String :=
  match findExact cols revenueCandidates with
  | some c => some c
  | none => substrRevenue cols

/-- Follows the claim's words: try the ordered exact case-insensitive
candidates first (ties broken by candidate order, then column order);
only if none matches, take the first column whose lowercased name
contains "total", "amount" or "sale" as a substring. -/
def inferRevenueClaim (cols : List String) : Option String :=
  match revenueCandidates.findSome?
      (fun cand => cols.find? (fun c => lowerStr c == cand)) with
  | some c => some c
  | none =>
    cols.find? (fun c =>
      strContains (lowerStr c) "total" || strContains (lowerStr c) "amount" ||
        strContains (lowerStr c) "sale")

/-! ## Sales vs P&L merge (`src/pages/3_Sales_vs_PnL.py` lines 43-73)

A parsed timestamp is embedded at day granularity as a pair
`(month key, day offset within the month)`: `(m, 0)` is the month-start
timestamp that `dt.to_period('M').dt.to_timestamp()` produces for any
day of month `m`, and `(m, d)` with `d > 0` is a later day of that
month.  Timestamp equality is equality of the pair. -/

/-- A sales-file row: the parsed `Month` timestamp (null when
unparseable) and the `Gross Profit(w/o Tax)` cell. -/
structure SRow where
  date : Option (ℕ × ℕ)
  gp : Option ℚ
deriving DecidableEq

/-- A P&L row: the raw parsed month/date timestamp (null when
unparseable) and the net-profit cell.  Line 57 keeps this timestamp as
is; it is never floored to the month start. -/
structure PRow where
  date : Option (ℕ × ℕ)
  np : Option ℚ
deriving DecidableEq

/-- `3_Sales_vs_PnL.py` lines 43-48: monthly gross-profit aggregation of
the sales file — group by `Month.dt.to_period('M')` (null dates dropped,
month keys sorted, null cells count 0 in the sum), then key each group
by its month-start timestamp `(m, 0)` via `dt.to_timestamp()`. -/
def salesGP (rows : List SRow) : List ((ℕ × ℕ) × ℚ) :=
  (((rows.filterMap (fun r => r.date.map Prod.fst)).dedup).insertionSort
      (· ≤ ·)).map (fun m =>
    ((m, 0),
      sumOpt ((rows.filter (fun r => r.date.map Prod.fst == some m)).map SRow.gp)))

/-- lines 57-61: the P&L rows restricted to a parseable date, carrying
their raw timestamps, sorted by timestamp. -/
def pnlValid (rows : List PRow) : List ((ℕ × ℕ) × Option ℚ) :=
  (rows.filterMap (fun r => r.date.map (fun d => (d, r.np)))).insertionSort
    (fun a b => a.1.1 < b.1.1 ∨ (a.1.1 = b.1.1 ∧ a.1.2 ≤ b.1.2))

/-- lines 64-69: `pd.merge(sales_gp, pnl_np, on="Month", how="inner")` —
every sales aggregate paired with every P&L row whose raw timestamp
EXACTLY equals the aggregate's month-start key. -/
def mergedRows (sales : List SRow) (pnl : List PRow) :
    List ((ℕ × ℕ) × ℚ × Option ℚ) :=
  (salesGP sales).bind (fun s =>
    ((pnlValid pnl).filter (fun p => p.1 == s.1)).map (fun p => (s.1, s.2, p.2)))

/-- lines 71-73: append `Overhead / Leakage = Gross_Profit - Net Profit`
to every merged row. -/
def mergedWithOverhead (sales : List SRow) (pnl : List PRow) :
    List ((ℕ × ℕ) × ℚ × Option ℚ × Option ℚ) :=
  (mergedRows sales pnl).map (fun x => (x.1, x.2.1, x.2.2, osub (some x.2.1) x.2.2))

/-! ## Theorems -/

theorem deriveProfit_length (cr : ColumnMapB) (rows : List Row) :
    (deriveProfit cr rows).length = rows.length := by
  unfold deriveProfit
  split
  · split
    · split <;> simp
    · simp
  · rfl

theorem osub_none_left (x : Option ℚ) : osub none x = none := by
  cases x <;> rfl

theorem deriveProfit_all_none (cr : ColumnMapB) (rows : List Row)
    (h : cr.hasProfit = false ∨ ∀ r ∈ rows, r.profit = none) :
    deriveProfit cr rows =
      rows.map (fun r =>
        { r with profit :=
            if cr.hasRevenue && cr.hasCost then
              if cr.hasTax then osub (osub r.revenue r.cost) r.tax
              else osub r.revenue r.cost
            else none }) := by
  unfold deriveProfit
  have hc : (!cr.hasProfit || rows.all (fun r => r.profit.isNone)) = true := by
    rcases h with h | h
    · simp [h]
    · simp only [Bool.or_eq_true, List.all_eq_true]
      right
      intro r hr
      simp [h r hr]
  rw [hc]
  by_cases h1 : (cr.hasRevenue && cr.hasCost) = true
  · by_cases h2 : cr.hasTax = true
    · simp [h1, h2]
    · simp [h1, h2]
  · simp [h1]

/-- Claim C1: when no explicit profit column is resolved (or the resolved
profit column is entirely null), each row's derived profit is
`revenue - cost - tax` when the cost and tax columns are resolved,
`revenue - cost` when only the cost column is resolved, and null when
the cost column is absent; when an explicit profit column is resolved
and not entirely null, every row keeps the profit taken directly from
that column (nothing is auto-computed). -/
theorem profit_derivation_policy (cr : ColumnMapB) (rows : List Row)
    (hwf : RowsWF cr rows) :
    (cr.hasProfit = true → ¬ (∀ r ∈ rows, r.profit = none) →
      deriveProfit cr rows = rows)
    ∧ ((cr.hasProfit = false ∨ ∀ r ∈ rows, r.profit = none) →
      ∀ i : ℕ,
        ((deriveProfit cr rows).get? i).map Row.profit =
          (rows.get? i).map (fun r =>
            if cr.hasCost && cr.hasTax then osub (osub r.revenue r.cost) r.tax
            else if cr.hasCost then osub r.revenue r.cost
            else none)) := by
  constructor
  · intro hp hnot
    unfold deriveProfit
    have hc : (!cr.hasProfit || rows.all (fun r => r.profit.isNone)) = false := by
      simp only [hp, Bool.not_true, Bool.false_or]
      by_contra hall
      apply hnot
      intro r hr
      have := List.all_eq_true.mp (Bool.of_not_eq_false hall) r hr
      simpa using this
    rw [hc]
    rfl
  · intro h i
    rw [deriveProfit_all_none cr rows h, List.get?_map, Option.map_map]
    cases hget : rows.get? i with
    | none => rfl
    | some r =>
      have hr : r ∈ rows := List.get?_mem hget
      simp only [Option.map_some', Function.comp_apply, Option.some.injEq]
      rcases hR : cr.hasRevenue
      · have h0 : r.revenue = none := hwf.1 hR r hr
        rcases hC : cr.hasCost <;> rcases hT : cr.hasTax <;>
          simp [hC, hT, h0, osub_none_left]
      · rcases hC : cr.hasCost <;> rcases hT : cr.hasTax <;> simp [hC, hT]

theorem profit_derivation_policy_witness :
    RowsWF ⟨true, true, true, false⟩
        [⟨some 100, some 60, some 10, none⟩, ⟨some 100, some 60, none, none⟩] ∧
      ((deriveProfit ⟨true, true, true, false⟩
          [⟨some 100, some 60, some 10, none⟩,
            ⟨some 100, some 60, none, none⟩]).get? 0).map Row.profit =
        some (some 30) ∧
      ((deriveProfit ⟨true, true, false, false⟩
          [⟨some 100, some 60, none, none⟩]).get? 0).map Row.profit =
        some (some 40) := by
  refine ⟨by decide, ?_, ?_⟩
  · have h := (profit_derivation_policy ⟨true, true, true, false⟩
      [⟨some 100, some 60, some 10, none⟩, ⟨some 100, some 60, none, none⟩]
      (by decide)).2 (Or.inl rfl) 0
    rw [h]
    norm_num [osub, List.get?]
  · have h := (profit_derivation_policy ⟨true, true, false, false⟩
      [⟨some 100, some 60, none, none⟩] (by decide)).2 (Or.inl rfl) 0
    rw [h]
    norm_num [osub, List.get?]

theorem aggregateMonthly_keys (rows : List NRow) :
    (aggregateMonthly rows).map MAgg.month_key = monthKeys rows := by
  unfold aggregateMonthly
  rw [List.map_map]
  exact List.map_id _

/-- Claim C3: monthly aggregation yields exactly one row per distinct
calendar month present among rows with non-null date, sorted strictly
ascending by month key; rows with a null date are excluded, no absent
month is fabricated, and null revenue/profit cells count as 0 in the
sums. -/
theorem aggregate_monthly_months (rows : List NRow) :
    ((aggregateMonthly rows).map MAgg.month_key).Sorted (· < ·)
    ∧ (∀ k : ℕ, k ∈ (aggregateMonthly rows).map MAgg.month_key ↔
        ∃ r ∈ rows, r.month_key = some k)
    ∧ (∀ a ∈ aggregateMonthly rows,
        a.revenue_sum =
          ((rows.filter (fun r => r.month_key == some a.month_key)).map
            (fun r => r.revenue.getD 0)).sum
        ∧ a.profit_sum =
          ((rows.filter (fun r => r.month_key == some a.month_key)).map
            (fun r => r.profit.getD 0)).sum) := by
  refine ⟨?_, ?_, ?_⟩
  · rw [aggregateMonthly_keys]
    have hs : (monthKeys rows).Sorted (· ≤ ·) := List.sorted_insertionSort _ _
    have hn : (monthKeys rows).Nodup :=
      ((List.perm_insertionSort _ _).nodup_iff).mpr (List.nodup_dedup _)
    exact hs.lt_of_le hn
  · intro k
    rw [aggregateMonthly_keys]
    unfold monthKeys
    rw [List.mem_insertionSort, List.mem_dedup, List.mem_filterMap]
  · intro a ha
    simp only [aggregateMonthly, List.mem_map] at ha
    obtain ⟨k, _, rfl⟩ := ha
    constructor <;>
      · unfold sumOpt
        simp only [List.map_map]
        rfl

theorem aggregate_monthly_months_witness :
    ((aggregateMonthly
        [⟨some 2, some 5, none⟩, ⟨none, some 7, some 1⟩,
          ⟨some 1, none, some 2⟩, ⟨some 2, some 3, some 4⟩]).map
      MAgg.month_key).Sorted (· < ·)
    ∧ (2 ∈ (aggregateMonthly
        [⟨some 2, some 5, none⟩, ⟨none, some 7, some 1⟩,
          ⟨some 1, none, some 2⟩, ⟨some 2, some 3, some 4⟩]).map MAgg.month_key ↔
      ∃ r ∈ ([⟨some 2, some 5, none⟩, ⟨none, some 7, some 1⟩,
          ⟨some 1, none, some 2⟩, ⟨some 2, some 3, some 4⟩] : List NRow),
        r.month_key = some 2) :=
  ⟨(aggregate_monthly_months _).1, (aggregate_monthly_months _).2.1 2⟩

theorem cumulativeFrom_eq (acc : ℚ) (l : List ℚ) :
    cumulativeFrom acc l =
      (List.range l.length).map (fun i => acc + (l.take (i + 1)).sum) := by
  induction l generalizing acc with
  | nil => rfl
  | cons x xs ih =>
    simp only [cumulativeFrom, List.length_cons, List.range_succ_eq_map,
      List.map_cons, List.map_map, ih]
    refine congrArg₂ List.cons (by simp) ?_
    refine List.map_congr ?_
    intro i _
    simp only [Function.comp_apply, List.take_succ_cons, List.sum_cons]
    ring

theorem cumulativeFrom_chain :
    ∀ (l : List ℚ) (acc : ℚ), (∀ x ∈ l, 0 ≤ x) →
      List.Chain' (· ≤ ·) (cumulativeFrom acc l)
  | [], _, _ => List.chain'_nil
  | [x], acc, _ => by simp [cumulativeFrom]
  | x :: y :: ys, acc, h => by
    have htail := cumulativeFrom_chain (y :: ys) (acc + x)
      (fun z hz => h z (List.mem_cons_of_mem _ hz))
    simp only [cumulativeFrom] at htail ⊢
    rw [List.chain'_cons]
    have hy : 0 ≤ y := h y (by simp)
    exact ⟨by linarith, htail⟩

/-- Claim C9: `cumulative_revenue` is the running sum of `revenue_sum`
over the month-sorted sequence starting at the first element, and is
monotonically non-decreasing whenever all `revenue_sum` values are
non-negative. -/
theorem cumulative_revenue_monotone (l : List ℚ) (h : ∀ x ∈ l, 0 ≤ x) :
    cumulativeRevenue l =
      (List.range l.length).map (fun i => (l.take (i + 1)).sum)
    ∧ (cumulativeRevenue l).Chain' (· ≤ ·) := by
  constructor
  · unfold cumulativeRevenue
    rw [cumulativeFrom_eq]
    simp
  · exact cumulativeFrom_chain l 0 h

theorem cumulative_revenue_monotone_witness :
    (∀ x ∈ ([2, 0, 3] : List ℚ), 0 ≤ x)
    ∧ (cumulativeRevenue [2, 0, 3]).Chain' (· ≤ ·) :=
  ⟨by norm_num, (cumulative_revenue_monotone [2, 0, 3] (by norm_num)).2⟩

theorem zip_dropLast_shift (c : ℚ) :
    ∀ (cs : List ℚ),
      cs.zip (((c :: cs).dropLast).map some) = cs.zip ((c :: cs).map some) := by
  intro cs
  induction cs generalizing c with
  | nil => rfl
  | cons d ds ih =>
    show (d :: ds).zip ((c :: (d :: ds).dropLast).map some) = _
    simp only [List.map_cons, List.zip_cons_cons]
    rw [ih d]
    rfl

theorem momPct_cons (a : ℚ) (xs : List ℚ) :
    momPct (a :: xs) = PVal.nan :: momTail a xs := by
  unfold momPct shift1 momTail
  simp only [List.zip_cons_cons, List.map_cons]
  rw [zip_dropLast_shift a xs]
  rfl

theorem momTail_get? :
    ∀ (xs : List ℚ) (p : ℚ) (i : ℕ) (x q : ℚ),
      xs.get? i = some x → (p :: xs).get? i = some q →
      (momTail p xs).get? i = some (momVal x q)
  | [], _, i, _, _, h, _ => by cases i <;> simp at h
  | b :: bs, p, 0, x, q, hx, hq => by
    simp only [List.get?] at hx hq
    cases hx; cases hq
    rfl
  | b :: bs, p, i + 1, x, q, hx, hq => by
    simp only [List.get?] at hx hq
    exact momTail_get? bs b i x q hx hq

theorem momVal_eq (x p : ℚ) :
    momVal x p =
      if p = 0 then (if x = p then PVal.nan else PVal.inf (decide (p < x)))
      else PVal.num ((x - p) / p * 100) := by
  unfold momVal psub pdiv
  by_cases hp : p = 0
  · subst hp
    simp only [if_pos rfl]
    by_cases hx : x = 0
    · subst hx
      simp [pmul]
    · have h1 : x - 0 ≠ 0 := by simpa using hx
      simp only [if_neg h1, if_neg hx, pmul]
      have h100 : (100 : ℚ) ≠ 0 := by norm_num
      simp [h100, sub_zero]
  · simp only [if_neg hp, pmul]

/-- Claim C4 (counterexample): with monthly revenue sums `[0, 50]`, the
second `revenue_mom_pct` entry is `+∞`, not null — a zero previous-month
sum leaks infinity into the output instead of yielding null. -/
theorem mom_pct_zero_prev_gives_inf :
    momPct [0, 50] = [PVal.nan, PVal.inf true]
    ∧ PVal.inf true ≠ PVal.nan := by
  constructor
  · rw [show ([0, 50] : List ℚ) = 0 :: [50] from rfl, momPct_cons]
    have h : momTail 0 [50] = [momVal 50 0] := rfl
    rw [h, momVal_eq]
    norm_num
  · simp

/-- Claim C4 (amended): `mom_pct` equals `(cur - prev) / prev * 100`; it
is NaN (null) for the first row; when the previous value is zero it is
NaN if the current value is also zero and a signed infinity otherwise
(infinity, not null, appears in the output); it is a finite percentage in
every other case, and no exception is raised.  The same formula applies
to `profit_mom_pct`. -/
theorem mom_pct_characterization (l : List ℚ) :
    (momPct l).length = l.length
    ∧ (l ≠ [] → (momPct l).get? 0 = some PVal.nan)
    ∧ (∀ (i : ℕ) (x p : ℚ), l.get? (i + 1) = some x → l.get? i = some p →
        (momPct l).get? (i + 1) =
          some (if p = 0 then (if x = p then PVal.nan else PVal.inf (decide (p < x)))
            else PVal.num ((x - p) / p * 100))) := by
  refine ⟨?_, ?_, ?_⟩
  · cases l with
    | nil => rfl
    | cons a xs =>
      rw [momPct_cons]
      unfold momTail
      simp
  · intro h
    cases l with
    | nil => exact absurd rfl h
    | cons a xs => rw [momPct_cons]; rfl
  · intro i x p hx hp
    cases l with
    | nil => simp at hx
    | cons a xs =>
      rw [momPct_cons]
      simp only [List.get?] at hx hp ⊢
      rw [momTail_get? xs a i x p hx hp, momVal_eq]

theorem mom_pct_characterization_witness :
    (([100, 110] : List ℚ).get? 1 = some 110 ∧ ([100, 110] : List ℚ).get? 0 = some 100)
    ∧ (momPct [100, 110]).get? 1 = some (PVal.num 10) := by
  refine ⟨⟨rfl, rfl⟩, ?_⟩
  have h := (mom_pct_characterization [100, 110]).2.2 0 110 100 rfl rfl
  rw [h]
  norm_num

/-- Claim C2 (code bug): on a gapless 13-month series the code's lag
column is null at the 13th row (January 2025) because
`groupby('month_number').shift(12)` demands twelve earlier aggregates
with the same calendar month (twelve years of history), so
`revenue_yoy_pct` is NaN; the claim (matching the code's own comment
"compare each month to same month last year") mandates matching January
2024, twelve positions back, giving a defined YoY of 0%. -/
theorem yoy_lag_code_bug_at_13_months :
    (lag12Code agg13).get? 12 = some none
    ∧ (yoyCode agg13).get? 12 = some PVal.nan
    ∧ (lag12Claim agg13).get? 12 = some (some 100)
    ∧ (yoyClaim agg13).get? 12 = some (some 0) := by
  refine ⟨by decide, by decide, by decide, ?_⟩
  have hz : (agg13.zip (lag12Claim agg13)).get? 12 =
      some ((24300, (100 : ℚ)), some (100 : ℚ)) := by decide
  unfold yoyClaim
  rw [List.get?_map, hz]
  norm_num

theorem forecastLoop_length (margin : PVal) (g : ℚ) :
    ∀ (n : ℕ) (rev : PVal), (forecastLoop margin g n rev).length = n
  | 0, _ => rfl
  | n + 1, rev => by
    simp only [forecastLoop, List.length_cons, forecastLoop_length margin g n]

theorem forecastLoop_get? (M g : ℚ) :
    ∀ (n i : ℕ) (A : ℚ),
      (forecastLoop (.num M) g n (.num A)).get? i =
        if i < n then
          some (.num (A * (1 + g) ^ (i + 1)), .num (A * (1 + g) ^ (i + 1) * M))
        else none
  | 0, i, A => by simp [forecastLoop]
  | n + 1, 0, A => by
    simp only [forecastLoop, pmul, List.get?]
    norm_num
  | n + 1, i + 1, A => by
    have ih := forecastLoop_get? M g n i (A * (1 + g))
    simp only [forecastLoop, pmul, List.get?]
    rw [ih]
    by_cases h : i < n
    · rw [if_pos h, if_pos (by omega)]
      have hpow : A * (1 + g) * (1 + g) ^ (i + 1) = A * (1 + g) ^ (i + 1 + 1) := by
        ring
      rw [hpow]
    · rw [if_neg h, if_neg (by omega)]

/-- Claim C6: the forecast is 12 points; the first point's revenue is
`avg_monthly_revenue * (1 + g)`; each later point's revenue is the
previous point's revenue times `(1 + g)` (compounding, never reset to
the average); every point's profit is its own revenue times
`avg_margin`. -/
theorem forecast_compounding (A M g : ℚ) :
    (forecastLoop (.num M) g 12 (.num A)).length = 12
    ∧ (forecastLoop (.num M) g 12 (.num A)).get? 0 =
        some (.num (A * (1 + g)), .num (A * (1 + g) * M))
    ∧ (∀ i : ℕ, i + 1 < 12 →
        ((forecastLoop (.num M) g 12 (.num A)).get? (i + 1)).map Prod.fst =
          ((forecastLoop (.num M) g 12 (.num A)).get? i).map
            (fun p => pmul p.1 (.num (1 + g))))
    ∧ (∀ i : ℕ, i < 12 →
        ((forecastLoop (.num M) g 12 (.num A)).get? i).map Prod.snd =
          ((forecastLoop (.num M) g 12 (.num A)).get? i).map
            (fun p => pmul p.1 (.num M))) := by
  refine ⟨forecastLoop_length _ _ 12 _, ?_, ?_, ?_⟩
  · rw [forecastLoop_get? M g 12 0 A]
    norm_num
  · intro i hi
    rw [forecastLoop_get? M g 12 (i + 1) A, forecastLoop_get? M g 12 i A,
      if_pos hi, if_pos (by omega)]
    simp only [Option.map_some', pmul, Option.some.injEq]
    congr 1
    ring
  · intro i hi
    rw [forecastLoop_get? M g 12 i A, if_pos hi]
    simp only [Option.map_some', pmul]

theorem forecast_compounding_witness :
    (0 : ℕ) + 1 < 12
    ∧ (forecastLoop (.num (1/5)) (3/100) 12 (.num 10000)).get? 0 =
        some (.num 10300, .num 2060)
    ∧ ((forecastLoop (.num (1/5)) (3/100) 12 (.num 10000)).get? 1).map Prod.fst =
        some (.num 10609) := by
  have h := forecast_compounding 10000 (1/5) (3/100)
  refine ⟨by norm_num, ?_, ?_⟩
  · rw [h.2.1]
    norm_num
  · rw [h.2.2.1 0 (by norm_num), h.2.1]
    simp only [Option.map_some', pmul, Option.some.injEq]
    norm_num

theorem marginRatios_filter (monthly : List (ℚ × ℚ))
    (h : ∀ x ∈ monthly, x.1 = 0 → x.2 = 0) :
    (marginRatios monthly).filter (fun v => !(isNanB v)) =
      (monthly.filter (fun x => if x.1 = 0 then false else true)).map
        (fun x => PVal.num (x.2 / x.1)) := by
  induction monthly with
  | nil => rfl
  | cons y ys ih =>
    have hy := h y (by simp)
    have hys : ∀ x ∈ ys, x.1 = 0 → x.2 = 0 :=
      fun x hx => h x (List.mem_cons_of_mem _ hx)
    rw [show marginRatios (y :: ys) = pdiv (.num y.2) (.num y.1) :: marginRatios ys
      from rfl, List.filter_cons, List.filter_cons]
    by_cases h0 : y.1 = 0
    · have h2 : y.2 = 0 := hy h0
      have hval : pdiv (.num y.2) (.num y.1) = PVal.nan := by
        rw [h0, h2]
        simp [pdiv]
      rw [hval, if_neg (show ¬((!(isNanB PVal.nan)) = true) by simp [isNanB]),
        if_pos h0, if_neg (show ¬(false = true) by simp)]
      exact ih hys
    · have hval : pdiv (.num y.2) (.num y.1) = PVal.num (y.2 / y.1) := by
        simp [pdiv, h0]
      rw [hval,
        if_pos (show (!(isNanB (PVal.num (y.2 / y.1)))) = true by simp [isNanB]),
        if_neg h0, if_pos (show (true = true) from rfl), List.map_cons, ih hys]

theorem foldl_padd_num :
    ∀ (l : List ℚ) (a : ℚ), (l.map PVal.num).foldl padd (.num a) = .num (a + l.sum)
  | [], a => by simp
  | x :: xs, a => by
    simp only [List.map_cons, List.foldl_cons, padd]
    rw [foldl_padd_num xs (a + x), List.sum_cons]
    congr 1
    ring

theorem map_isEmpty_eq (f : (ℚ × ℚ) → PVal) (l : List (ℚ × ℚ)) :
    (l.map f).isEmpty = l.isEmpty := by cases l <;> rfl

/-- Claim C7 (amended): `avg_margin` is the pandas mean of the per-month
`profit_sum / revenue_sum` ratios in which only the NaN ratios — months
with zero revenue AND zero profit — are skipped; provided no month has
zero revenue with nonzero profit, it equals the plain average of the
ratios over the months with nonzero revenue, and it is NaN (not a clean
refusal) when no such month remains. -/
theorem avg_margin_mean_characterization (monthly : List (ℚ × ℚ))
    (h : ∀ x ∈ monthly, x.1 = 0 → x.2 = 0) :
    avgMargin monthly =
      if (monthly.filter (fun x => if x.1 = 0 then false else true)).isEmpty
      then PVal.nan
      else PVal.num
        (((monthly.filter (fun x => if x.1 = 0 then false else true)).map
            (fun x => x.2 / x.1)).sum /
          ((monthly.filter (fun x => if x.1 = 0 then false else true)).length : ℚ)) := by
  unfold avgMargin pmean
  rw [marginRatios_filter monthly h, map_isEmpty_eq]
  by_cases he : (monthly.filter (fun x => if x.1 = 0 then false else true)).isEmpty = true
  · rw [if_pos he, if_pos he]
  · rw [if_neg he, if_neg he]
    have hmm : (monthly.filter (fun x => if x.1 = 0 then false else true)).map
        (fun x => PVal.num (x.2 / x.1)) =
        ((monthly.filter (fun x => if x.1 = 0 then false else true)).map
          (fun x => x.2 / x.1)).map PVal.num := by
      rw [List.map_map]
      rfl
    rw [hmm, foldl_padd_num]
    have hne : (monthly.filter (fun x => if x.1 = 0 then false else true)) ≠ [] := by
      intro hnil
      rw [hnil] at he
      exact he rfl
    have hlen : ((monthly.filter (fun x => if x.1 = 0 then false else true)).length : ℚ) ≠ 0 := by
      rw [Nat.cast_ne_zero]
      intro h0
      exact hne (List.length_eq_zero.mp h0)
    simp only [pdiv, List.length_map, zero_add]
    rw [if_neg hlen]

theorem avg_margin_mean_characterization_witness :
    (∀ x ∈ ([(10, 2), (0, 0)] : List (ℚ × ℚ)), x.1 = 0 → x.2 = 0)
    ∧ avgMargin [(10, 2), (0, 0)] = PVal.num (1/5) := by
  constructor
  · intro x hx
    simp only [List.mem_cons, List.mem_singleton] at hx
    rcases hx with rfl | rfl | h
    · intro h10; norm_num at h10
    · intro _; rfl
    · simp at h
  · rw [avg_margin_mean_characterization [(10, 2), (0, 0)] (by
      intro x hx
      simp only [List.mem_cons, List.mem_singleton] at hx
      rcases hx with rfl | rfl | h
      · intro h10; norm_num at h10
      · intro _; rfl
      · simp at h)]
    norm_num [List.filter_cons]

/-- Claim C7 (counterexample): with one month of zero revenue and
positive profit and one ordinary month, `avg_margin` is `+∞` (not the
mean over nonzero-revenue months, which would be `1/5`) and the first
forecast point's profit is `+∞` — infinity leaks into the forecast
output and the forecaster never refuses. -/
theorem avg_margin_inf_leak :
    avgMargin [((0 : ℚ), 5), (10, 2)] = PVal.inf true
    ∧ avgMargin [((0 : ℚ), 5), (10, 2)] ≠ PVal.num (1/5)
    ∧ ((forecastPage [((0 : ℚ), 5), (10, 2)] (3/100)).get? 0).map Prod.snd =
        some (PVal.inf true) := by
  have hm : avgMargin [((0 : ℚ), 5), (10, 2)] = PVal.inf true := by
    have hr : marginRatios [((0 : ℚ), 5), (10, 2)] =
        [PVal.inf true, PVal.num (1/5)] := by
      simp only [marginRatios, List.map_cons, List.map_nil, pdiv]
      norm_num
    unfold avgMargin
    rw [hr]
    simp only [pmean, isNanB, List.filter, Bool.not_false, List.isEmpty,
      List.foldl, padd, pdiv]
    norm_num
  have hrev : avgMonthlyRevenue [((0 : ℚ), 5), (10, 2)] = PVal.num 5 := by
    simp only [avgMonthlyRevenue, List.map_cons, List.map_nil, pmean, isNanB,
      List.filter, Bool.not_false, List.isEmpty, List.foldl, padd, pdiv]
    norm_num
  refine ⟨hm, by rw [hm]; simp, ?_⟩
  unfold forecastPage
  rw [hm, hrev]
  simp only [forecastLoop, List.get?, Option.map_some', pmul]
  norm_num

/-- Claim C5 (counterexample): uploading a file whose only column is
`Foo` makes the fixed-schema forecast view fail with a bare
`KeyError 'Month'`: an uncaught exception, not the descriptive message
with a preview of available columns that the claim describes. -/
theorem forecast_missing_month_keyerror :
    forecastLoad ["Foo"] = .error (.keyErr "Month")
    ∧ isDescriptive (LoadErr.keyErr "Month") = false := by
  exact ⟨rfl, rfl⟩

/-- Claim C5 (amended): whenever one of the required columns `Month`,
`Grand Total`, `Gross Profit(w/o Tax)` is absent, the view aborts with
an uncaught `KeyError` naming the first missing column in access order;
no descriptive message and no preview of available columns is
produced. -/
theorem fixed_schema_missing_column_keyerror (cols : List String) (c : String)
    (h : firstMissing cols = some c) :
    forecastLoad cols = .error (.keyErr c)
    ∧ ∀ e : LoadErr, forecastLoad cols = .error e → isDescriptive e = false := by
  have hmain : forecastLoad cols = .error (.keyErr c) := by
    unfold firstMissing at h
    by_cases h1 : "Month" ∈ cols
    · by_cases h2 : "Grand Total" ∈ cols
      · by_cases h3 : "Gross Profit(w/o Tax)" ∈ cols
        · simp [h1, h2, h3] at h
        · simp only [if_pos h1, if_pos h2, if_neg h3, Option.some.injEq] at h
          subst h
          simp [forecastLoad, requireCol, h1, h2, h3]
      · simp only [if_pos h1, if_neg h2, Option.some.injEq] at h
        subst h
        simp [forecastLoad, requireCol, h1, h2]
    · simp only [if_neg h1, Option.some.injEq] at h
      subst h
      simp [forecastLoad, requireCol, h1]
  refine ⟨hmain, ?_⟩
  intro e he
  rw [hmain] at he
  cases he
  rfl

theorem fixed_schema_missing_column_keyerror_witness :
    firstMissing ["Month", "Grand Total"] = some "Gross Profit(w/o Tax)"
    ∧ forecastLoad ["Month", "Grand Total"] =
        .error (.keyErr "Gross Profit(w/o Tax)") :=
  ⟨by decide,
    (fixed_schema_missing_column_keyerror ["Month", "Grand Total"]
      "Gross Profit(w/o Tax)" rfl).1⟩

theorem firstIdx_map_lower_get (q : String → Bool) :
    ∀ cols : List String,
      (match firstIdx q (cols.map lowerStr) with
        | some i => cols.get? i
        | none => none) = cols.find? (fun c => q (lowerStr c)) := by
  intro cols
  induction cols with
  | nil => rfl
  | cons c cs ih =>
    simp only [List.map_cons, firstIdx, List.find?]
    by_cases hq : q (lowerStr c) = true
    · rw [if_pos hq, hq]
      rfl
    · rw [if_neg hq]
      have hq2 : q (lowerStr c) = false := by
        cases h : q (lowerStr c)
        · rfl
        · exact absurd h hq
      rw [hq2]
      cases hfi : firstIdx q (cs.map lowerStr) with
      | none =>
        rw [hfi] at ih
        simpa using ih
      | some i =>
        rw [hfi] at ih
        simpa using ih

theorem firstIdx_lt (cand : String) :
    ∀ (l : List String) (j : ℕ),
      firstIdx (fun c => c == cand) l = some j → j < l.length := by
  intro l
  induction l with
  | nil => intro j h; simp [firstIdx] at h
  | cons x xs ihx =>
    intro j h
    simp only [firstIdx] at h
    by_cases hx : (x == cand) = true
    · rw [if_pos hx] at h
      cases h
      simp
    · rw [if_neg hx] at h
      cases hfx : firstIdx (fun c => c == cand) xs with
      | none => rw [hfx] at h; simp at h
      | some j2 =>
        rw [hfx] at h
        simp only [Option.map_some', Option.some.injEq] at h
        subst h
        have := ihx j2 hfx
        simp only [List.length_cons]
        omega

theorem findExact_eq_findSome? (cols : List String) :
    ∀ cands : List String,
      findExact cols cands =
        cands.findSome? (fun cand => cols.find? (fun c => lowerStr c == cand)) := by
  intro cands
  induction cands with
  | nil => rfl
  | cons cand rest ih =>
    have hidx := firstIdx_map_lower_get (fun c => c == cand) cols
    rw [List.findSome?_cons, ← hidx]
    cases hfi : firstIdx (fun c => c == cand) (cols.map lowerStr) with
    | none => simpa [findExact, hfi] using ih
    | some i =>
      cases hget : cols.get? i with
      | none =>
        have hlt : i < cols.length := by
          have h2 := firstIdx_lt cand (cols.map lowerStr) i hfi
          simpa using h2
        rw [List.get?_eq_none] at hget
        omega
      | some v =>
        have hget2 : cols[i]? = some v := by
          rw [← List.get?_eq_getElem?]
          exact hget
        simp [findExact, hfi, hget, hget2]

/-- Claim C8: the code's revenue inference coincides with the claim's
two-phase rule (ordered exact case-insensitive candidates first, then
the first column containing "total"/"amount"/"sale"); in particular a
column named exactly `Grand Total` resolves to the revenue role already
in the exact-match phase, because `grand total` is in the candidate
list. -/
theorem infer_revenue_matches_claim :
    (∀ cols : List String, inferRevenue cols = inferRevenueClaim cols)
    ∧ findExact ["Price", "Grand Total"] revenueCandidates = some "Grand Total"
    ∧ inferRevenue ["Price", "Grand Total"] = some "Grand Total" := by
  refine ⟨?_, by decide, by decide⟩
  intro cols
  unfold inferRevenue inferRevenueClaim
  rw [findExact_eq_findSome? cols revenueCandidates]
  cases revenueCandidates.findSome?
      (fun cand => cols.find? (fun c => lowerStr c == cand)) with
  | some c => rfl
  | none =>
    have hsub := firstIdx_map_lower_get
      (fun c => strContains c "total" || strContains c "amount" ||
        strContains c "sale") cols
    unfold substrRevenue
    rw [← hsub]

theorem mem_mergedRows (sales : List SRow) (pnl : List PRow)
    (x : (ℕ × ℕ) × ℚ × Option ℚ) :
    x ∈ mergedRows sales pnl ↔
      ∃ s ∈ salesGP sales, ∃ p ∈ pnlValid pnl, p.1 = s.1 ∧ x = (s.1, s.2, p.2) := by
  unfold mergedRows
  simp only [List.mem_bind, List.mem_map, List.mem_filter, beq_iff_eq]
  constructor
  · rintro ⟨s, hs, p, ⟨hp, hps⟩, rfl⟩
    exact ⟨s, hs, p, hp, hps, rfl⟩
  · rintro ⟨s, hs, p, hp, hps, rfl⟩
    exact ⟨s, hs, p, ⟨hp, hps⟩, rfl⟩

theorem mem_pnlValid (pnl : List PRow) (p : (ℕ × ℕ) × Option ℚ) :
    p ∈ pnlValid pnl ↔ ∃ r ∈ pnl, r.date = some p.1 ∧ r.np = p.2 := by
  unfold pnlValid
  rw [List.mem_insertionSort, List.mem_filterMap]
  constructor
  · rintro ⟨r, hr, hmap⟩
    cases hm : r.date with
    | none => rw [hm] at hmap; simp at hmap
    | some d =>
      rw [hm] at hmap
      simp only [Option.map_some', Option.some.injEq] at hmap
      subst hmap
      exact ⟨r, hr, by rw [hm], rfl⟩
  · rintro ⟨r, hr, hd, hnp⟩
    refine ⟨r, hr, ?_⟩
    rw [hd]
    simp only [Option.map_some', Option.some.injEq]
    rw [hnp]

theorem salesGP_key_month_start (rows : List SRow) :
    ∀ s ∈ salesGP rows, s.1.2 = 0 := by
  intro s hs
  simp only [salesGP, List.mem_map] at hs
  obtain ⟨m, _, rfl⟩ := hs
  rfl

/-- Claim C10 (counterexample): a sale during month 5 puts the
month-start key `(5, 0)` into the sales aggregation, and a P&L row
dated a later day of month 5 — timestamp `(5, 30)` — has a parseable
month 5; the claim then demands month 5 in the comparison table, yet the
merge on exact timestamps produces no row at all. -/
theorem merged_join_month_mismatch :
    (salesGP [⟨some (5, 2), some 7⟩]).map Prod.fst = [(5, 0)]
    ∧ (∃ r ∈ ([⟨some (5, 30), some 2⟩] : List PRow),
        r.date.map Prod.fst = some 5)
    ∧ mergedWithOverhead [⟨some (5, 2), some 7⟩] [⟨some (5, 30), some 2⟩] = [] := by
  refine ⟨by decide, by decide, by decide⟩

/-- Claim C10 (amended): the merge is an inner join on EXACT timestamp
equality — the sales side carries month-start keys while the P&L side
keeps its raw parsed dates — so the comparison table has an entry for
month `m` precisely when `m` appears in the sales gross-profit
aggregation and some P&L row's parsed date is exactly the month-start
timestamp of `m`; a P&L row dated any other day of its month (and any
month present in only one input) is silently omitted.  Every merged
key is a month-start timestamp, and each matched row's
`Overhead / Leakage` equals its `Gross_Profit` minus its `Net Profit`. -/
theorem merged_inner_join_exact_dates (sales : List SRow) (pnl : List PRow) :
    (∀ m : ℕ,
      (∃ x ∈ mergedWithOverhead sales pnl, x.1 = (m, 0)) ↔
        ((∃ s ∈ salesGP sales, s.1 = (m, 0)) ∧ ∃ r ∈ pnl, r.date = some (m, 0)))
    ∧ (∀ x ∈ mergedWithOverhead sales pnl, x.1.2 = 0)
    ∧ (∀ x ∈ mergedWithOverhead sales pnl, x.2.2.2 = osub (some x.2.1) x.2.2.1) := by
  refine ⟨?_, ?_, ?_⟩
  · intro m
    constructor
    · rintro ⟨x, hx, hx1⟩
      simp only [mergedWithOverhead, List.mem_map] at hx
      obtain ⟨y, hy, rfl⟩ := hx
      rw [mem_mergedRows] at hy
      obtain ⟨s, hs, p, hp, hps, rfl⟩ := hy
      have hs1 : s.1 = (m, 0) := hx1
      refine ⟨⟨s, hs, hs1⟩, ?_⟩
      rw [mem_pnlValid] at hp
      obtain ⟨r, hr, hd, _⟩ := hp
      exact ⟨r, hr, by rw [hd, hps, hs1]⟩
    · rintro ⟨⟨s, hs, hs1⟩, r, hr, hd⟩
      refine ⟨(s.1, s.2, r.np, osub (some s.2) r.np), ?_, hs1⟩
      simp only [mergedWithOverhead, List.mem_map]
      refine ⟨(s.1, s.2, r.np), ?_, rfl⟩
      rw [mem_mergedRows]
      exact ⟨s, hs, (s.1, r.np),
        (mem_pnlValid pnl (s.1, r.np)).mpr ⟨r, hr, by rw [hd, hs1], rfl⟩, rfl, rfl⟩
  · intro x hx
    simp only [mergedWithOverhead, List.mem_map] at hx
    obtain ⟨y, hy, rfl⟩ := hx
    rw [mem_mergedRows] at hy
    obtain ⟨s, hs, p, _, _, rfl⟩ := hy
    exact salesGP_key_month_start sales s hs
  · intro x hx
    simp only [mergedWithOverhead, List.mem_map] at hx
    obtain ⟨y, _, rfl⟩ := hx
    rfl

theorem merged_inner_join_exact_dates_witness :
    (∃ x ∈ mergedWithOverhead [⟨some (3, 4), some 7⟩]
        [⟨some (3, 0), some 2⟩], x.1 = ((3 : ℕ), (0 : ℕ))) ↔
      ((∃ s ∈ salesGP [⟨some (3, 4), some 7⟩], s.1 = ((3 : ℕ), (0 : ℕ)))
        ∧ ∃ r ∈ ([⟨some (3, 0), some 2⟩] : List PRow),
            r.date = some ((3 : ℕ), (0 : ℕ))) :=
  (merged_inner_join_exact_dates [⟨some (3, 4), some 7⟩]
    [⟨some (3, 0), some 2⟩]).1 3

end Dashboard
